import Mathlib

/-!
Verification of the PiTrac launch-monitor core against its specification.

The development shallowly embeds the relevant C++ sources:
* `configuration_manager.{h,cpp}` — the three-tier configuration store,
* `gs_calibration.cpp` — camera auto-calibration,
* `onnx_runtime_detector.{hpp,cpp}` — the neural detector's letterbox
  pre/post-processing, non-max suppression, and buffer pool,
* `gs_trajectory_calc.{h,cpp}` — trajectory input validation,
* `libcamera_jpeg.cpp` — the flight-capture state machine.

Machine floating-point values are modelled as exact rationals; control
flow and comparisons are translated directly from the sources.
-/

namespace PiTrac

/- ===================================================================
   Configuration store  (configuration_manager.h / .cpp)
   =================================================================== -/

/-- One tier of the configuration (a boost property tree), modelled as a
flat association list from dotted-path keys to the string values stored
at the leaves. -/
abbrev Tree : Type := List (String × String)

/-- Model of `GetFromTree<std::string>`: look a dotted path up in one tier,
`none` when the path is absent (the `ptree_error` catch). -/
def treeGet (t : Tree) (key : String) : Option String :=
  match t with
  | [] => none
  | (k, v) :: rest => if k = key then some v else treeGet rest key

/-- The `validation:` block of one entry of the parameter-mapping table
(`mappings.<key>.validation` in parameter-mappings.yaml): optional
`enum`, `min`, `max` and `pattern` rules.  The compiled `std::regex`
match is modelled as an opaque boolean predicate on strings. -/
structure Validation where
  enumVals : Option (List String)
  minVal : Option ℚ
  maxVal : Option ℚ
  patternOk : Option (String → Bool)

/-- One entry of the parameter-mapping table: an optional
`json_path` alias and optional validation metadata. -/
structure MappingEntry where
  jsonPath : Option String
  validation : Option Validation

/-- The state of `ConfigurationManager`: the three value tiers plus the
mapping table.  `jsonConfig` is the system tier (golf_sim_config.json,
with user_settings.json already merged over it by `Initialize`),
`yamlConfig` the user/preset tier and `cliOverrides` the runtime tier. -/
structure ConfigState where
  jsonConfig : Tree
  yamlConfig : Tree
  cliOverrides : Tree
  mappings : List (String × MappingEntry)

/-- Look a key up in the mapping table (`mappings_.get_child_optional
("mappings." + key)`). -/
def mappingFor (maps : List (String × MappingEntry)) (key : String) :
    Option MappingEntry :=
  match maps with
  | [] => none
  | (k, m) :: rest => if k = key then some m else mappingFor rest key

/-- Model of `ConfigurationManager::MapToJsonPath`: return the mapped `json_path`
when the mapping table has one, otherwise the original key. -/
def MapToJsonPath (maps : List (String × MappingEntry)) (key : String) :
    String :=
  match mappingFor maps key with
  | some m =>
    match m.jsonPath with
    | some p => p
    | none => key
  | none => key

/-- Model of `ConfigurationManager::GetValue` / `GetString`: strict
CLI → user → mapped-system → default precedence. -/
def GetString (cfg : ConfigState) (key dflt : String) : String :=
  match treeGet cfg.cliOverrides key with
  | some v => v
  | none =>
    match treeGet cfg.yamlConfig key with
    | some v => v
    | none =>
      match treeGet cfg.jsonConfig (MapToJsonPath cfg.mappings key) with
      | some v => v
      | none => dflt

/- ------- decimal strings: std::to_string / std::stoi / std::stof ------- -/

/-- Decimal digit characters of a natural number, most significant
first. -/
def natDigits (n : ℕ) : List Char :=
  if h : n < 10 then [Char.ofNat (48 + n)]
  else
    have : n / 10 < n := Nat.div_lt_self (by omega) (by omega)
    natDigits (n / 10) ++ [Char.ofNat (48 + n % 10)]

/-- Model of `std::to_string` on an `int`. -/
def intToString (n : ℤ) : String :=
  if n < 0 then String.mk ('-' :: natDigits n.natAbs)
  else String.mk (natDigits n.natAbs)

/-- Numeric value of a list of decimal digit characters. -/
def digitsVal (cs : List Char) : ℕ :=
  cs.foldl (fun a c => 10 * a + (c.toNat - 48)) 0

/-- Strip an optional leading sign character; the boolean is true for a
leading minus. -/
def splitSign (cs : List Char) : Bool × List Char :=
  match cs with
  | [] => (false, [])
  | c :: rest =>
    if c = '-' then (true, rest)
    else if c = '+' then (false, rest)
    else (false, c :: rest)

/-- Model of `std::stoi`: skip leading whitespace, optional sign, then a maximal
non-empty run of decimal digits; `none` models the thrown
`invalid_argument` when no digits are found. -/
def stoiModel (s : String) : Option ℤ :=
  let sr := splitSign (s.data.dropWhile Char.isWhitespace)
  let ds := sr.2.takeWhile Char.isDigit
  if ds.isEmpty then none
  else some ((if sr.1 then -1 else 1) * (digitsVal ds : ℤ))

/-- Fractional tail of the `std::stof` parse: `intDs` are the integer
digits already consumed and `rest` is the remaining input, which may
start with a decimal point followed by fraction digits. -/
def stofTail (sgn : ℚ) (intDs rest : List Char) : Option ℚ :=
  match rest with
  | [] => if intDs.isEmpty then none else some (sgn * (digitsVal intDs : ℚ))
  | c :: rest2 =>
    if c = '.' then
      let fracDs := rest2.takeWhile Char.isDigit
      if intDs.isEmpty ∧ fracDs.isEmpty then none
      else some (sgn *
        ((digitsVal intDs : ℚ) +
          (digitsVal fracDs : ℚ) / (10 : ℚ) ^ fracDs.length))
    else if intDs.isEmpty then none
    else some (sgn * (digitsVal intDs : ℚ))

/-- Model of `std::stof` (on the decimal subset the configuration uses): skip
leading whitespace, optional sign, integer digits, then an optional
fractional part after a decimal point. -/
def stofModel (s : String) : Option ℚ :=
  let sr := splitSign (s.data.dropWhile Char.isWhitespace)
  stofTail (if sr.1 then -1 else 1) (sr.2.takeWhile Char.isDigit)
    (sr.2.dropWhile Char.isDigit)

/-- Model of `ConfigurationManager::GetInt`: stringify the default, read through
`GetString`, parse with `std::stoi`, fall back to the default when the
parse fails. -/
def GetInt (cfg : ConfigState) (key : String) (dflt : ℤ) : ℤ :=
  let strVal := GetString cfg key (intToString dflt)
  match stoiModel strVal with
  | some n => n
  | none => dflt

/-- Model of `%.6f` rendering of a rational that is an integer multiple of
10⁻⁶, as produced by `std::to_string` on a `float`. -/
def floatToString (q : ℚ) : String :=
  let m : ℤ := ⌊q * 1000000⌋
  let mag := m.natAbs
  let ip := natDigits (mag / 1000000)
  let fracVal := mag % 1000000
  let fd := natDigits fracVal
  let frac := List.replicate (6 - fd.length) '0' ++ fd
  if m < 0 then String.mk (('-' :: ip) ++ ('.' :: frac))
  else String.mk (ip ++ ('.' :: frac))

/-- Model of `ConfigurationManager::GetFloat`: stringify the default, read through
`GetString`, parse with `std::stof`, fall back to the default when the
parse fails. -/
def GetFloat (cfg : ConfigState) (key : String) (dflt : ℚ) : ℚ :=
  let strVal := GetString cfg key (floatToString dflt)
  match stofModel strVal with
  | some q => q
  | none => dflt

/-- Model of `ConfigurationManager::GetBool`: tolerant parse of the effective
string, falling back to the default on anything unrecognised. -/
def GetBool (cfg : ConfigState) (key : String) (dflt : Bool) : Bool :=
  let strVal := GetString cfg key (if dflt then "true" else "false")
  if strVal = "true" ∨ strVal = "1" ∨ strVal = "yes" ∨ strVal = "on" then
    true
  else if strVal = "false" ∨ strVal = "0" ∨ strVal = "no" ∨
      strVal = "off" then
    false
  else dflt

/- ------- validation (ValidateValue / ValidateConfiguration) ------- -/

/-- The `min`/`max` block of `ConfigurationManager::ValidateValue`:
when either bound is declared, `std::stof` the value (parse failure is
the "not numeric" error), then compare against the declared bounds. -/
def checkMinMax (v : Validation) (key value : String) : Option String :=
  if v.minVal.isNone ∧ v.maxVal.isNone then none
  else
    match stofModel value with
    | none => some (key ++ ": value " ++ value ++ " is not numeric")
    | some q =>
      if (match v.minVal with | some lo => decide (q < lo) | none => false) then
        some (key ++ ": value " ++ value ++ " below minimum")
      else if (match v.maxVal with | some hi => decide (hi < q) | none => false) then
        some (key ++ ": value " ++ value ++ " above maximum")
      else none

/-- The `pattern` block of `ValidateValue` (the regex match is the
opaque predicate stored in the metadata). -/
def checkPattern (v : Validation) (key value : String) : Option String :=
  match v.patternOk with
  | some p =>
    if p value then none
    else some (key ++ ": value " ++ value ++ " does not match pattern")
  | none => none

/-- Model of `ConfigurationManager::ValidateValue`: a key with no mapping entry
or no validation metadata is valid; otherwise the `enum`, `min`/`max`
and `pattern` rules run in order and the first violation produces the
error message (`none` = valid, `some msg` = the message pushed onto
`validation_errors_`). -/
def ValidateValue (maps : List (String × MappingEntry)) (key value : String) :
    Option String :=
  match mappingFor maps key with
  | none => none
  | some m =>
    match m.validation with
    | none => none
    | some v =>
      match v.enumVals with
      | some es =>
        if value ∈ es then
          match checkMinMax v key value with
          | some msg => some msg
          | none => checkPattern v key value
        else some (key ++ ": value " ++ value ++ " not in allowed values")
      | none =>
        match checkMinMax v key value with
        | some msg => some msg
        | none => checkPattern v key value

/-- Loop body of `ValidateConfiguration`: validate one tier entry
against its own stored value, clearing the `valid` flag and appending
the message on a violation. -/
def validateStep (maps : List (String × MappingEntry))
    (acc : Bool × List String) (e : String × String) : Bool × List String :=
  match ValidateValue maps e.1 e.2 with
  | none => acc
  | some msg => (false, acc.2 ++ [msg])

/-- Model of `ConfigurationManager::ValidateConfiguration`: iterate the entries
of the user (yaml) tier and then the CLI tier, validating each entry
against its own tier value, collecting every error message; the
returned flag is `valid`. -/
def ValidateConfiguration (cfg : ConfigState) : Bool × List String :=
  List.foldl (validateStep cfg.mappings)
    (List.foldl (validateStep cfg.mappings) (true, []) cfg.yamlConfig)
    cfg.cliOverrides

/-- Error messages produced by validating every entry of one tier
against its own stored value (used to characterise
`ValidateConfiguration`). -/
def tierErrors (maps : List (String × MappingEntry)) (t : Tree) :
    List String :=
  t.filterMap fun e => ValidateValue maps e.1 e.2

/- ===================================================================
   Camera auto-calibration  (gs_calibration.cpp)
   =================================================================== -/

/-- Loop body of the focal-length sampling loop of
`GolfSimCalibration::AutoCalibrateCamera`.  `sample idx` is the value
returned by `DetermineFocalLengthForAutoCalibration` for the idx-th
captured picture (negative on a detection failure).  `none` models the
`return false` taken when `number_failures` exceeds
`kNumberOfCalibrationFailuresToTolerate`; `some (sum, count)` gives the
running `average_focal_length` sum and `number_samples` at loop exit.
On a tolerated failure the source decrements `i` and then falls through
to the bookkeeping below the `if`, so the failed (negative) sample is
still added to the sum and counted in `number_samples`. -/
def focalLoopGo (sample : ℕ → ℚ) (attempts tolerate : ℕ) :
    ℕ → ℕ → ℕ → ℕ → ℚ → ℕ → Option (ℚ × ℕ)
  | 0, _, _, _, _, _ => none
  | fuel + 1, i, idx, failures, sum, count =>
    if attempts ≤ i then some (sum, count)
    else
      let s := sample idx
      if s < 0 then
        if tolerate < failures + 1 then none
        else
          focalLoopGo sample attempts tolerate fuel i (idx + 1)
            (failures + 1) (sum + s) (count + 1)
      else
        focalLoopGo sample attempts tolerate fuel (i + 1) (idx + 1)
          failures (sum + s) (count + 1)

/-- The focal-length sampling loop, run with enough fuel that the fuel
never runs out (each iteration either advances `i` toward `attempts` or
increments the failure count toward the abort). -/
def focalLoop (sample : ℕ → ℚ) (attempts tolerate : ℕ) : Option (ℚ × ℕ) :=
  focalLoopGo sample attempts tolerate (attempts + tolerate + 2) 0 0 0 0 0

/-- Model of `GolfSimCalibration::DetermineCameraAngles`, reduced to its result
structure: the trigonometric recovery of the two pointing angles from
the detected ball position is supplied by the environment as
`computedAngles` (`none` models a failed ball detection or empty
image).  The function rejects the calibration when either computed
angle exceeds `kMaxReasonableAngle = 45` degrees in magnitude. -/
def DetermineCameraAngles (computedAngles : Option (ℚ × ℚ)) :
    Option (ℚ × ℚ) :=
  match computedAngles with
  | none => none
  | some (a1, a2) =>
    if 45 < |a1| ∨ 45 < |a2| then none
    else some (a1, a2)

/-- Externally visible effects of `AutoCalibrateCamera` past the sanity
checks, in program order: the two in-memory `SetTreeValue` updates, the
two web PUTs, the backup copy of the config file, and the rewrite of
the config file. -/
inductive CalibEffect where
  | setTreeValue
  | webPut
  | backupConfigFile
  | writeConfigFile
deriving DecidableEq, Repr

/-- Environment of one `AutoCalibrateCamera` call: results of the
collaborating subsystems (config constants, camera captures, ball
detection geometry, filesystem). -/
structure CalibEnv where
  retrieveConstantsOk : Bool
  distanceToBall : ℚ
  expectedRadius : ℚ
  maxRadiusOffset : ℤ
  stillPictureOk : Bool
  sample : ℕ → ℚ
  attempts : ℕ
  tolerate : ℕ
  computedAngles : Option (ℚ × ℚ)
  backupOk : Bool
  writeOk : Bool

/-- The tail of `AutoCalibrateCamera` after the sampling loop ended
with `sum` over `count` samples: the `number_samples == 0` guard, the
`average_focal_length` range check, the angle determination with its
range check, and only then the file-writing and web-notification
steps (in program order: the two `SetTreeValue` updates, the two web
PUTs, the backup `cp`, and the config rewrite). -/
def autoCalibrateAfterSampling (env : CalibEnv) (sum : ℚ) (count : ℕ) :
    Bool × List CalibEffect :=
  if count = 0 then (false, [])
  else if sum / (count : ℚ) < 2 ∨ 50 < sum / (count : ℚ) then (false, [])
  else
    match DetermineCameraAngles env.computedAngles with
    | none => (false, [])
    | some _ =>
      let effects := [CalibEffect.setTreeValue, CalibEffect.setTreeValue,
        CalibEffect.webPut, CalibEffect.webPut,
        CalibEffect.backupConfigFile]
      if ¬env.backupOk then (false, effects)
      else if ¬env.writeOk then
        (false, effects ++ [CalibEffect.writeConfigFile])
      else (true, effects ++ [CalibEffect.writeConfigFile])

/-- Model of `GolfSimCalibration::AutoCalibrateCamera`: the guard sequence, the
focal-length sampling loop, then `autoCalibrateAfterSampling`. -/
def AutoCalibrateCamera (env : CalibEnv) : Bool × List CalibEffect :=
  if ¬env.retrieveConstantsOk then (false, [])
  else if env.distanceToBall ≤ 0 then (false, [])
  else if env.expectedRadius ≤ 0 ∨ 1000 < env.expectedRadius then (false, [])
  else if ⌊env.expectedRadius⌋ + env.maxRadiusOffset ≤ 0 ∨
      1000 < ⌊env.expectedRadius⌋ + env.maxRadiusOffset then (false, [])
  else if ¬env.stillPictureOk then (false, [])
  else
    match focalLoop env.sample env.attempts env.tolerate with
    | none => (false, [])
    | some (sum, count) => autoCalibrateAfterSampling env sum count

/- ===================================================================
   Neural detector  (onnx_runtime_detector.hpp / .cpp)
   =================================================================== -/

/-- Model of `cv::Rect2f`: an axis-aligned box given by its top-left corner and
size. -/
structure Box where
  x : ℚ
  y : ℚ
  w : ℚ
  h : ℚ
deriving DecidableEq, Repr

/-- Model of `cv::Rect2f::area`. -/
def Box.area (b : Box) : ℚ := b.w * b.h

/-- Area of `a & b` (cv::Rect intersection): zero when the rectangles
do not overlap. -/
def interArea (a b : Box) : ℚ :=
  let x1 := max a.x b.x
  let y1 := max a.y b.y
  let w2 := min (a.x + a.w) (b.x + b.w) - x1
  let h2 := min (a.y + a.h) (b.y + b.h) - y1
  if w2 ≤ 0 ∨ h2 ≤ 0 then 0 else w2 * h2

/-- Model of `std::numeric_limits<float>::epsilon()` = 2⁻²³. -/
def fltEpsilon : ℚ := 1 / 8388608

/-- Model of `ONNXRuntimeDetector::IOU`: intersection over union, 0 for a
degenerate union, clamped to [0, 1]. -/
def IOU (a b : Box) : ℚ :=
  let inter := interArea a b
  let unionArea := a.area + b.area - inter
  if unionArea ≤ fltEpsilon then 0
  else max 0 (min 1 (inter / unionArea))

/-- Model of `ONNXRuntimeDetector::Detection`. -/
structure Detection where
  bbox : Box
  confidence : ℚ
  classId : ℤ
deriving DecidableEq, Repr

/-- Sort detections by descending confidence (`std::sort` with
comparator `a.confidence > b.confidence`). -/
def sortByConfDesc (l : List Detection) : List Detection :=
  l.insertionSort fun a b => b.confidence ≤ a.confidence

/-- The greedy suppression pass of
`ONNXRuntimeDetector::NonMaxSuppression` over the confidence-sorted
list: the head is kept, and every later detection of the same class
whose IoU with it exceeds the threshold is suppressed (marked in the
`suppressed` array, i.e. removed from further consideration).  The
fuel argument only drives the structural recursion; `nmsKeep` supplies
the list length, which is always enough. -/
def nmsKeepGo (thr : ℚ) : ℕ → List Detection → List Detection
  | _, [] => []
  | 0, _ :: _ => []
  | fuel + 1, d :: rest =>
    d :: nmsKeepGo thr fuel (rest.filter fun e =>
      decide (¬(e.classId = d.classId ∧ thr < IOU d.bbox e.bbox)))

/-- Greedy suppression over a confidence-sorted list. -/
def nmsKeep (thr : ℚ) (l : List Detection) : List Detection :=
  nmsKeepGo thr l.length l

/-- Model of `ONNXRuntimeDetector::NonMaxSuppression`: sort by descending
confidence, then suppress greedily (class-aware). -/
def NonMaxSuppression (thr : ℚ) (dets : List Detection) : List Detection :=
  nmsKeep thr (sortByConfDesc dets)

/- ------- letterbox pre/post-processing ------- -/

/-- Model of `ONNXRuntimeDetector::LetterboxParams`. -/
structure LetterboxParams where
  scale : ℚ
  xOffset : ℤ
  yOffset : ℤ
deriving DecidableEq, Repr

/-- The scale and centred offsets computed by
`PreprocessImageStandard` for an image of `w × h` pixels letterboxed
into a `W × H` input tensor: `scale = min(W/w, H/h)`,
`new_width = (int)(w·scale)`, `x_offset = (W − new_width) / 2`
(C++ integer division), and likewise vertically. -/
def letterboxParams (w h W H : ℕ) : LetterboxParams :=
  let scale : ℚ := min ((W : ℚ) / (w : ℚ)) ((H : ℚ) / (h : ℚ))
  let newW : ℤ := ⌊(w : ℚ) * scale⌋
  let newH : ℤ := ⌊(h : ℚ) * scale⌋
  { scale := scale
    xOffset := ((W : ℤ) - newW) / 2
    yOffset := ((H : ℤ) - newH) / 2 }

/-- Forward letterbox coordinate map: the resize scales a source point
by `scale` and the centred paste shifts it by the offsets. -/
def letterboxFwd (p : LetterboxParams) (c : ℚ × ℚ) : ℚ × ℚ :=
  (c.1 * p.scale + (p.xOffset : ℚ), c.2 * p.scale + (p.yOffset : ℚ))

/-- The inverse mapping applied by `PostprocessYOLO`:
`cx_orig = (cx − x_offset) / scale` and likewise for `cy`. -/
def letterboxInv (p : LetterboxParams) (c : ℚ × ℚ) : ℚ × ℚ :=
  ((c.1 - (p.xOffset : ℚ)) / p.scale, (c.2 - (p.yOffset : ℚ)) / p.scale)

/- ------- memory pool and Detect ------- -/

/-- The in-use flags of `ONNXRuntimeDetector::MemoryPool`. -/
structure PoolState where
  inputBufferInUse : Bool
  outputBufferInUse : Bool
deriving DecidableEq, Repr

/-- Model of `MemoryPool::GetInputBuffer`: throws `std::runtime_error` when the
input buffer is already claimed, otherwise marks it in use. -/
def poolGetInputBuffer (p : PoolState) : Except String PoolState :=
  if p.inputBufferInUse then Except.error "Input buffer already in use"
  else Except.ok { p with inputBufferInUse := true }

/-- Model of `MemoryPool::ReleaseBuffers`: clear both in-use flags. -/
def poolReleaseBuffers (_p : PoolState) : PoolState :=
  { inputBufferInUse := false, outputBufferInUse := false }

/-- Which buffer a detection call ends up using. -/
inductive BufferSource where
  | pooled
  | heapFallback
deriving DecidableEq, Repr

/-- Model of `ONNXRuntimeDetector::GetInputBuffer`: try to claim the pool
buffer; the thrown `runtime_error` is caught and the call falls back to
the thread-local heap buffer. -/
def detectorGetInputBuffer (hasPool : Bool) (p : PoolState) :
    BufferSource × PoolState :=
  if hasPool then
    match poolGetInputBuffer p with
    | Except.ok p2 => (BufferSource.pooled, p2)
    | Except.error _ => (BufferSource.heapFallback, p)
  else (BufferSource.heapFallback, p)

/-- Model of `ONNXRuntimeDetector::ReleaseBuffers`. -/
def detectorReleaseBuffers (hasPool : Bool) (p : PoolState) : PoolState :=
  if hasPool then poolReleaseBuffers p else p

/-- Result of `session_->Run` together with the output checks of
`Detect`: the three malformed-output cases, the non-positive
accumulated size case, and success (carrying the detections
`PostprocessYOLO` produces from the output tensor). -/
inductive RunOutcome where
  | noOutputTensors
  | nullOutputData
  | emptyOutputShape
  | nonPositiveOutputSize
  | ok (dets : List Detection)

/-- Environment of one `Detect` call: the input image properties, the
session state, and the inference outcome supplied by the external
runtime. -/
structure DetectEnv where
  imageEmpty : Bool
  imageChannels : ℕ
  sessionInitialized : Bool
  hasMemoryPool : Bool
  outcome : RunOutcome

/-- Observable result of one `Detect` call: returned detections, the
pool state on return, whether inference was attempted, and which input
buffer the call used (`none` when it returned before claiming one). -/
structure DetectResult where
  dets : List Detection
  pool : PoolState
  inferenceAttempted : Bool
  bufferUsed : Option BufferSource

/-- Model of `ONNXRuntimeDetector::Detect`: input guards (empty image, channel
count, uninitialised session) return an empty list before touching the
pool; then the input buffer is claimed (with heap fallback), inference
runs, and the malformed-output early returns leave the pool as is;
only the successful path reaches `ReleaseBuffers`. -/
def Detect (env : DetectEnv) (p : PoolState) : DetectResult :=
  if env.imageEmpty then
    { dets := [], pool := p, inferenceAttempted := false, bufferUsed := none }
  else if env.imageChannels ≠ 3 then
    { dets := [], pool := p, inferenceAttempted := false, bufferUsed := none }
  else if ¬env.sessionInitialized then
    { dets := [], pool := p, inferenceAttempted := false, bufferUsed := none }
  else
    let claimed := detectorGetInputBuffer env.hasMemoryPool p
    match env.outcome with
    | RunOutcome.noOutputTensors =>
      { dets := [], pool := claimed.2, inferenceAttempted := true,
        bufferUsed := some claimed.1 }
    | RunOutcome.nullOutputData =>
      { dets := [], pool := claimed.2, inferenceAttempted := true,
        bufferUsed := some claimed.1 }
    | RunOutcome.emptyOutputShape =>
      { dets := [], pool := claimed.2, inferenceAttempted := true,
        bufferUsed := some claimed.1 }
    | RunOutcome.nonPositiveOutputSize =>
      { dets := [], pool := claimed.2, inferenceAttempted := true,
        bufferUsed := some claimed.1 }
    | RunOutcome.ok dets =>
      { dets := dets,
        pool := detectorReleaseBuffers env.hasMemoryPool claimed.2,
        inferenceAttempted := true, bufferUsed := some claimed.1 }

/- ===================================================================
   Trajectory calculation  (gs_trajectory_calc.h / .cpp)
   =================================================================== -/

/-- Model of `TrajectoryInput`: the five required launch parameters plus the
optional atmospheric measurements. -/
structure TrajectoryInput where
  initialVelocityMph : ℚ
  verticalLaunchAngleDeg : ℚ
  horizontalLaunchAngleDeg : ℚ
  backspinRpm : ℚ
  sidespinRpm : ℚ
  temperatureF : Option ℚ
  elevationFt : Option ℚ
  windSpeedMph : Option ℚ
  windDirectionDeg : Option ℚ
  humidityPercent : Option ℚ
  pressureInhg : Option ℚ

/-- Model of `TrajectoryResult` (fields the C++ leaves uninitialised on error
paths are modelled as 0). -/
structure TrajectoryResult where
  carryDistanceYards : ℚ
  flightTimeSeconds : ℚ
  landingAngleDeg : ℚ
  maxHeightYards : ℚ
  calculationSuccessful : Bool
  errorMessage : String

/-- Model of `PiTracTrajectoryCalculator::validateInput`: velocity in [50, 250],
vertical launch angle in [−10, 60], |horizontal| ≤ 45,
|spin| ≤ 10000. -/
def validateInput (input : TrajectoryInput) : Bool :=
  if input.initialVelocityMph < 50 ∨ 250 < input.initialVelocityMph then
    false
  else if input.verticalLaunchAngleDeg < -10 ∨
      60 < input.verticalLaunchAngleDeg then false
  else if 45 < |input.horizontalLaunchAngleDeg| then false
  else if 10000 < |input.backspinRpm| ∨ 10000 < |input.sidespinRpm| then
    false
  else true

/-- Model of `PiTracTrajectoryCalculator::applyDefaults`: fill in the default
atmospheric conditions for absent sensor data. -/
def applyDefaults (input : TrajectoryInput) : TrajectoryInput :=
  { input with
    temperatureF := some (input.temperatureF.getD 70)
    elevationFt := some (input.elevationFt.getD 0)
    windSpeedMph := some (input.windSpeedMph.getD 0)
    windDirectionDeg := some (input.windDirectionDeg.getD 0)
    humidityPercent := some (input.humidityPercent.getD 50)
    pressureInhg := some (input.pressureInhg.getD (2992 / 100)) }

/-- The quantities `calculateCarry` reads off a successful libshotscope
simulation (landing position, flight time, landing angle, apex). -/
structure PhysicsOutput where
  carryDistanceYards : ℚ
  flightTimeSeconds : ℚ
  landingAngleDeg : ℚ
  maxHeightYards : ℚ

/-- Model of `PiTracTrajectoryCalculator::calculateCarry`: reject out-of-range
input with `calculation_successful = false`, an explanatory message and
zero carry; otherwise run the (external) libshotscope physics, whose
thrown `std::exception` is caught and reported with the
"libshotscope calculation error: " message. -/
def calculateCarry (phys : TrajectoryInput → Except String PhysicsOutput)
    (input : TrajectoryInput) : TrajectoryResult :=
  if ¬validateInput input then
    { carryDistanceYards := 0, flightTimeSeconds := 0, landingAngleDeg := 0,
      maxHeightYards := 0, calculationSuccessful := false,
      errorMessage := "Invalid input parameters" }
  else
    match phys (applyDefaults input) with
    | Except.ok out =>
      { carryDistanceYards := out.carryDistanceYards,
        flightTimeSeconds := out.flightTimeSeconds,
        landingAngleDeg := out.landingAngleDeg,
        maxHeightYards := out.maxHeightYards,
        calculationSuccessful := true,
        errorMessage :=
          "Calculated using libshotscope physics (Prof. Alan Nathan research)" }
    | Except.error e =>
      { carryDistanceYards := 0, flightTimeSeconds := 0, landingAngleDeg := 0,
        maxHeightYards := 0, calculationSuccessful := false,
        errorMessage := "libshotscope calculation error: " ++ e }

/- ===================================================================
   Flight-capture state machine  (libcamera_jpeg.cpp)
   =================================================================== -/

/-- Model of `FlightCameraState`. -/
inductive FlightCameraState where
  | kUninitialized
  | kWaitingForFirstPrimingPulseGroup
  | kWaitingForFirstPrimingTimeEnd
  | kWaitingForPreImageTrigger
  | kWaitingForPreImageFlush
  | kWaitingForSecondPrimingPulseGroup
  | kWaitingForSecondPrimingTimeEnd
  | kWaitingForFinalImageTrigger
  | kWaitingForFinalImageFlush
  | kFinalImageReceived
deriving DecidableEq, Repr

/-- Model of `kQuiesceTimeMs`:
`(kNumberPrimingPulses + 1) * (1000 / kPrimingPulseFPS)` (C++ integer
division), plus `kPauseToSetUpInnoMakerExternalTriggerMilliseconds`
when the slot-2 camera is the InnoMaker model. -/
def kQuiesceTimeMs (numberPrimingPulses primingPulseFPS : ℤ)
    (isInnoMaker : Bool) (pauseMs : ℤ) : ℤ :=
  (numberPrimingPulses + 1) * (1000 / primingPulseFPS) +
    (if isInnoMaker then pauseMs else 0)

/-- Static configuration read by the event loop. -/
structure FsmConfig where
  usePreImageSubtraction : Bool
  cameraRequiresFlushPulse : Bool
  quiesceTimeMs : ℤ

/-- One `RequestComplete` (trigger) message processed by the state
switch of `ball_flight_camera_event_loop`; `elapsedMs` is `timeLapsed`,
the milliseconds since the first priming trigger.  The
`kUninitialized`/`kFinalImageReceived` cases abort the loop with the
state unchanged; the flush case is taken on its successful (non-null
stream/image) path. -/
def fsmTriggerStep (cfg : FsmConfig) (s : FlightCameraState)
    (elapsedMs : ℤ) : FlightCameraState :=
  match s with
  | .kWaitingForFinalImageTrigger => .kWaitingForFinalImageFlush
  | .kWaitingForFinalImageFlush => .kFinalImageReceived
  | .kUninitialized => .kUninitialized
  | .kFinalImageReceived => .kFinalImageReceived
  | .kWaitingForFirstPrimingPulseGroup => .kWaitingForFirstPrimingTimeEnd
  | .kWaitingForFirstPrimingTimeEnd =>
    if elapsedMs < cfg.quiesceTimeMs then .kWaitingForFirstPrimingTimeEnd
    else if ¬cfg.usePreImageSubtraction then
      if ¬cfg.cameraRequiresFlushPulse then .kWaitingForFinalImageFlush
      else .kWaitingForFinalImageTrigger
    else .kWaitingForPreImageTrigger
  | .kWaitingForPreImageTrigger => .kWaitingForPreImageFlush
  | .kWaitingForPreImageFlush => .kWaitingForFinalImageTrigger
  | .kWaitingForSecondPrimingPulseGroup => .kWaitingForSecondPrimingTimeEnd
  | .kWaitingForSecondPrimingTimeEnd =>
    if elapsedMs < cfg.quiesceTimeMs / 2 then .kWaitingForSecondPrimingTimeEnd
    else .kWaitingForFinalImageTrigger

/- ===================================================================
   Spec-side definitions (used to compare code behaviour with the
   specification's wording)
   =================================================================== -/

/-- Spec-side notion of the *effective* value of a key: the merged
CLI-over-user-over-system value that a `get` would return, `none` when
the key is in no tier. -/
def specEffectiveValue (cfg : ConfigState) (key : String) : Option String :=
  match treeGet cfg.cliOverrides key with
  | some v => some v
  | none =>
    match treeGet cfg.yamlConfig key with
    | some v => some v
    | none => treeGet cfg.jsonConfig (MapToJsonPath cfg.mappings key)

/- ===================================================================
   Helper lemmas
   =================================================================== -/

theorem digitChar_isDigit : ∀ d < 10, (Char.ofNat (48 + d)).isDigit = true := by
  decide

theorem digitChar_not_ws : ∀ d < 10,
    (Char.ofNat (48 + d)).isWhitespace = false := by decide

theorem digitChar_toNat : ∀ d < 10, (Char.ofNat (48 + d)).toNat = 48 + d := by
  decide

theorem digitChar_ne_signs : ∀ d < 10,
    ¬(Char.ofNat (48 + d) = '-') ∧ ¬(Char.ofNat (48 + d) = '+') ∧
    ¬(Char.ofNat (48 + d) = '.') := by decide

theorem digitsVal_append_singleton (xs : List Char) (c : Char) :
    digitsVal (xs ++ [c]) = 10 * digitsVal xs + (c.toNat - 48) := by
  simp [digitsVal, List.foldl_append]

/-- A digit character produced by `natDigits` is a decimal digit, is
not whitespace, and is none of the sign/decimal-point characters;
moreover `digitsVal` inverts `natDigits` and the digit list is never
empty. -/
theorem natDigits_spec (n : ℕ) :
    (∀ c ∈ natDigits n, c.isDigit = true ∧ c.isWhitespace = false ∧
      ¬(c = '-') ∧ ¬(c = '+') ∧ ¬(c = '.')) ∧
    digitsVal (natDigits n) = n ∧ natDigits n ≠ [] := by
  induction n using Nat.strong_induction_on with
  | _ n ih =>
    rw [natDigits]
    split
    · rename_i h
      refine ⟨?_, ?_, by simp⟩
      · intro c hc
        simp only [List.mem_singleton] at hc
        subst hc
        exact ⟨digitChar_isDigit n h, digitChar_not_ws n h,
          (digitChar_ne_signs n h).1, (digitChar_ne_signs n h).2.1,
          (digitChar_ne_signs n h).2.2⟩
      · have ht := digitChar_toNat n h
        simp [digitsVal, ht]
    · rename_i h
      have hlt : n / 10 < n := Nat.div_lt_self (by omega) (by omega)
      obtain ⟨ihmem, ihval, _⟩ := ih _ hlt
      have hm : n % 10 < 10 := Nat.mod_lt _ (by omega)
      refine ⟨?_, ?_, by simp⟩
      · intro c hc
        rcases List.mem_append.mp hc with hc1 | hc2
        · exact ihmem c hc1
        · simp only [List.mem_singleton] at hc2
          subst hc2
          exact ⟨digitChar_isDigit _ hm, digitChar_not_ws _ hm,
            (digitChar_ne_signs _ hm).1, (digitChar_ne_signs _ hm).2.1,
            (digitChar_ne_signs _ hm).2.2⟩
      · rw [digitsVal_append_singleton, ihval, digitChar_toNat _ hm]
        omega

theorem takeWhile_all {p : Char → Bool} {l : List Char}
    (h : ∀ c ∈ l, p c = true) : l.takeWhile p = l := by
  induction l with
  | nil => rfl
  | cons c rest ih =>
    rw [List.takeWhile_cons, h c (by simp)]
    simp [ih fun x hx => h x (by simp [hx])]

theorem dropWhile_all {p : Char → Bool} {l : List Char}
    (h : ∀ c ∈ l, p c = true) : l.dropWhile p = [] := by
  induction l with
  | nil => rfl
  | cons c rest ih =>
    rw [List.dropWhile_cons, h c (by simp)]
    simp [ih fun x hx => h x (by simp [hx])]

theorem takeWhile_append_stop {p : Char → Bool} {xs : List Char}
    (y : Char) (ys : List Char) (hx : ∀ c ∈ xs, p c = true)
    (hy : p y = false) : (xs ++ y :: ys).takeWhile p = xs := by
  induction xs with
  | nil => simp [List.takeWhile_cons, hy]
  | cons c rest ih =>
    rw [List.cons_append, List.takeWhile_cons, hx c (by simp)]
    simp [ih fun x hx2 => hx x (by simp [hx2])]

theorem dropWhile_append_stop {p : Char → Bool} {xs : List Char}
    (y : Char) (ys : List Char) (hx : ∀ c ∈ xs, p c = true)
    (hy : p y = false) : (xs ++ y :: ys).dropWhile p = y :: ys := by
  induction xs with
  | nil => simp [List.dropWhile_cons, hy]
  | cons c rest ih =>
    rw [List.cons_append, List.dropWhile_cons, hx c (by simp)]
    simp only [if_pos rfl]
    exact ih fun x hx2 => hx x (by simp [hx2])

/-- Model of `std::stoi` inverts `std::to_string` on every int. -/
theorem stoi_intToString (n : ℤ) : stoiModel (intToString n) = some n := by
  obtain ⟨hmem, hval, hne⟩ := natDigits_spec n.natAbs
  have htake : (natDigits n.natAbs).takeWhile Char.isDigit = natDigits n.natAbs :=
    takeWhile_all fun c hc => (hmem c hc).1
  have hempty : (natDigits n.natAbs).isEmpty = false := by
    cases h : natDigits n.natAbs with
    | nil => exact absurd h hne
    | cons a l => rfl
  by_cases hn : n < 0
  · rw [intToString, if_pos hn]
    have hdrop : List.dropWhile Char.isWhitespace ('-' :: natDigits n.natAbs)
        = '-' :: natDigits n.natAbs := by
      rw [List.dropWhile_cons]
      simp [show ('-').isWhitespace = false from rfl]
    have hsplit : splitSign ('-' :: natDigits n.natAbs)
        = (true, natDigits n.natAbs) := by
      rw [splitSign]
      simp
    simp only [stoiModel]
    simp only [hdrop, hsplit, htake, hempty, Bool.false_eq_true, if_false,
      if_true, hval]
    congr 1
    omega
  · rw [intToString, if_neg hn]
    obtain ⟨c, rest, hD⟩ := List.exists_cons_of_ne_nil hne
    have hc : c ∈ natDigits n.natAbs := by rw [hD]; simp
    obtain ⟨hcd, hcw, hcm, hcp, _⟩ := hmem c hc
    have hdrop : List.dropWhile Char.isWhitespace (natDigits n.natAbs)
        = natDigits n.natAbs := by
      rw [hD, List.dropWhile_cons, hcw]
      simp
    have hsplit : splitSign (natDigits n.natAbs)
        = (false, natDigits n.natAbs) := by
      rw [hD, splitSign]
      simp [hcm, hcp]
    simp only [stoiModel]
    simp only [hdrop, hsplit, htake, hempty, Bool.false_eq_true, if_false,
      hval, one_mul]
    congr 1
    omega

theorem natDigits_length_le (n : ℕ) : ∀ k, 0 < k → n < 10 ^ k →
    (natDigits n).length ≤ k := by
  induction n using Nat.strong_induction_on with
  | _ n ih =>
    intro k hk hn
    rw [natDigits]
    split
    · simpa using hk
    · rename_i h
      have hlt : n / 10 < n := Nat.div_lt_self (by omega) (by omega)
      have hk2 : 2 ≤ k := by
        rcases Nat.lt_or_ge k 2 with hc | hc
        · interval_cases k <;> simp_all <;> omega
        · exact hc
      have hpow : 10 ^ k = 10 * 10 ^ (k - 1) := by
        conv_lhs => rw [show k = (k - 1) + 1 by omega]
        rw [pow_succ]
        ring
      have hdiv : n / 10 < 10 ^ (k - 1) :=
        Nat.div_lt_of_lt_mul (hpow ▸ hn)
      have hr := ih _ hlt (k - 1) (by omega) hdiv
      simp only [List.length_append, List.length_singleton]
      omega

theorem foldl_zero_replicate (k : ℕ) :
    List.foldl (fun a c => 10 * a + (c.toNat - 48)) 0
      (List.replicate k '0') = 0 := by
  induction k with
  | zero => rfl
  | succ k ih =>
    rw [List.replicate_succ, List.foldl_cons]
    simpa using ih

theorem digitsVal_pad (k : ℕ) (ds : List Char) :
    digitsVal (List.replicate k '0' ++ ds) = digitsVal ds := by
  simp [digitsVal, List.foldl_append, foldl_zero_replicate]

/-- Core computation of `std::stof` on a rendered fixed-point string:
shared facts about the digit runs. -/
theorem stof_core_tail (sgn : ℚ) (ip frac : List Char)
    (hipdig : ∀ c ∈ ip, c.isDigit = true) (hipne : ip ≠ [])
    (hfrac : ∀ c ∈ frac, c.isDigit = true) :
    stofTail sgn ip ('.' :: frac) =
      some (sgn * ((digitsVal ip : ℚ) +
        (digitsVal frac : ℚ) / (10 : ℚ) ^ frac.length)) := by
  have hipe : ip.isEmpty = false := by
    cases h : ip with
    | nil => exact absurd h hipne
    | cons a l => rfl
  have hftake : frac.takeWhile Char.isDigit = frac := takeWhile_all hfrac
  simp only [stofTail, if_pos rfl, hftake, hipe, Bool.false_eq_true,
    false_and, if_false, if_true]

/-- Model of `std::stof` on a negative rendered fixed-point string
`"-" ip "." frac`. -/
theorem stof_core_neg (ip frac : List Char)
    (hip : ∀ c ∈ ip, c.isDigit = true ∧ c.isWhitespace = false ∧
      ¬(c = '-') ∧ ¬(c = '+') ∧ ¬(c = '.'))
    (hipne : ip ≠ [])
    (hfrac : ∀ c ∈ frac, c.isDigit = true) :
    stofModel (String.mk ('-' :: (ip ++ '.' :: frac)))
      = some (-(((digitsVal ip : ℚ) +
          (digitsVal frac : ℚ) / (10 : ℚ) ^ frac.length))) := by
  have hipdig : ∀ c ∈ ip, c.isDigit = true := fun c hc => (hip c hc).1
  have htake : (ip ++ '.' :: frac).takeWhile Char.isDigit = ip :=
    takeWhile_append_stop _ _ hipdig (by decide)
  have hdropd : (ip ++ '.' :: frac).dropWhile Char.isDigit = '.' :: frac :=
    dropWhile_append_stop _ _ hipdig (by decide)
  have hdrop : List.dropWhile Char.isWhitespace ('-' :: (ip ++ '.' :: frac))
      = '-' :: (ip ++ '.' :: frac) := by
    rw [List.dropWhile_cons]
    simp [show ('-').isWhitespace = false from rfl]
  have hsplit : splitSign ('-' :: (ip ++ '.' :: frac))
      = (true, ip ++ '.' :: frac) := by
    rw [splitSign]
    simp
  simp only [stofModel, hdrop, hsplit, htake, hdropd]
  rw [stof_core_tail _ _ _ hipdig hipne hfrac]
  norm_num

/-- Model of `std::stof` on a non-negative rendered fixed-point string
`ip "." frac`. -/
theorem stof_core_pos (ip frac : List Char)
    (hip : ∀ c ∈ ip, c.isDigit = true ∧ c.isWhitespace = false ∧
      ¬(c = '-') ∧ ¬(c = '+') ∧ ¬(c = '.'))
    (hipne : ip ≠ [])
    (hfrac : ∀ c ∈ frac, c.isDigit = true) :
    stofModel (String.mk (ip ++ '.' :: frac))
      = some ((digitsVal ip : ℚ) +
          (digitsVal frac : ℚ) / (10 : ℚ) ^ frac.length) := by
  obtain ⟨c0, ipt, hips⟩ := List.exists_cons_of_ne_nil hipne
  have hc0 : c0 ∈ ip := by rw [hips]; simp
  obtain ⟨hc0d, hc0w, hc0m, hc0p, _⟩ := hip c0 hc0
  have hipdig : ∀ c ∈ ip, c.isDigit = true := fun c hc => (hip c hc).1
  have htake : (ip ++ '.' :: frac).takeWhile Char.isDigit = ip :=
    takeWhile_append_stop _ _ hipdig (by decide)
  have hdropd : (ip ++ '.' :: frac).dropWhile Char.isDigit = '.' :: frac :=
    dropWhile_append_stop _ _ hipdig (by decide)
  have hdrop : List.dropWhile Char.isWhitespace (ip ++ '.' :: frac)
      = ip ++ '.' :: frac := by
    rw [hips, List.cons_append, List.dropWhile_cons, hc0w]
    simp
  have hsplit : splitSign (ip ++ '.' :: frac)
      = (false, ip ++ '.' :: frac) := by
    rw [hips, List.cons_append, splitSign]
    simp [hc0m, hc0p]
  simp only [stofModel, hdrop, hsplit, htake, hdropd]
  rw [stof_core_tail _ _ _ hipdig hipne hfrac]
  norm_num

/-- Model of `std::stof` applied to the `%.6f` rendering recovers the rational
truncated at six decimal places. -/
theorem stof_floatToString (q : ℚ) :
    stofModel (floatToString q) = some ((⌊q * 1000000⌋ : ℚ) / 1000000) := by
  obtain ⟨hipm, hipv, hipne⟩ := natDigits_spec (⌊q * 1000000⌋.natAbs / 1000000)
  obtain ⟨hfdm, hfdv, _⟩ := natDigits_spec (⌊q * 1000000⌋.natAbs % 1000000)
  have hmodlt : ⌊q * 1000000⌋.natAbs % 1000000 < 10 ^ 6 := by
    have := Nat.mod_lt ⌊q * 1000000⌋.natAbs (show 0 < 1000000 by norm_num)
    simpa using this
  have hfdlen := natDigits_length_le (⌊q * 1000000⌋.natAbs % 1000000) 6
    (by norm_num) hmodlt
  set fd := natDigits (⌊q * 1000000⌋.natAbs % 1000000) with hfd
  set frac := List.replicate (6 - fd.length) '0' ++ fd with hfracdef
  have hfraclen : frac.length = 6 := by
    rw [hfracdef]
    simp only [List.length_append, List.length_replicate]
    omega
  have hfracdig : ∀ c ∈ frac, c.isDigit = true := by
    intro c hc
    rcases List.mem_append.mp hc with hc1 | hc2
    · have := List.eq_of_mem_replicate hc1
      subst this
      rfl
    · exact (hfdm c hc2).1
  have hfracval : digitsVal frac = ⌊q * 1000000⌋.natAbs % 1000000 := by
    rw [hfracdef, digitsVal_pad, hfdv]
  have hdm : (1000000 : ℚ) * ((⌊q * 1000000⌋.natAbs / 1000000 : ℕ) : ℚ) +
      ((⌊q * 1000000⌋.natAbs % 1000000 : ℕ) : ℚ) =
      (⌊q * 1000000⌋.natAbs : ℚ) := by
    exact_mod_cast congrArg (fun x : ℕ => (x : ℚ))
      (Nat.div_add_mod ⌊q * 1000000⌋.natAbs 1000000)
  by_cases hm : ⌊q * 1000000⌋ < 0
  · have hfts : floatToString q = String.mk ('-' ::
        (natDigits (⌊q * 1000000⌋.natAbs / 1000000) ++ '.' :: frac)) := by
      simp only [floatToString, if_pos hm, hfracdef, hfd]
      rfl
    rw [hfts, stof_core_neg _ frac hipm hipne hfracdig]
    rw [hipv, hfracval, hfraclen]
    have hcast : ((⌊q * 1000000⌋.natAbs : ℕ) : ℚ) = -(⌊q * 1000000⌋ : ℚ) := by
      rw [Int.cast_natAbs]
      exact_mod_cast abs_of_neg hm
    rw [hcast] at hdm
    congr 1
    have h6 : ((10 : ℚ)) ^ (6 : ℕ) = 1000000 := by norm_num
    rw [h6]
    field_simp
    linarith [hdm]
  · have hfts : floatToString q = String.mk
        (natDigits (⌊q * 1000000⌋.natAbs / 1000000) ++ '.' :: frac) := by
      simp only [floatToString, if_neg hm, hfracdef, hfd]
    rw [hfts, stof_core_pos _ frac hipm hipne hfracdig]
    rw [hipv, hfracval, hfraclen]
    have hcast : ((⌊q * 1000000⌋.natAbs : ℕ) : ℚ) = (⌊q * 1000000⌋ : ℚ) := by
      rw [Int.cast_natAbs]
      exact_mod_cast abs_of_nonneg (not_lt.mp hm)
    rw [hcast] at hdm
    congr 1
    have h6 : ((10 : ℚ)) ^ (6 : ℕ) = 1000000 := by norm_num
    rw [h6]
    field_simp
    linarith [hdm]

/- ===================================================================
   Configuration store theorems (claims C1, C3)
   =================================================================== -/

theorem getString_eq_effective (cfg : ConfigState) (key d : String) :
    GetString cfg key d = (specEffectiveValue cfg key).getD d := by
  unfold GetString specEffectiveValue
  cases treeGet cfg.cliOverrides key with
  | some v => rfl
  | none =>
    cases treeGet cfg.yamlConfig key with
    | some v => rfl
    | none =>
      cases treeGet cfg.jsonConfig (MapToJsonPath cfg.mappings key) with
      | some v => rfl
      | none => rfl

theorem getFloat_absent (cfg : ConfigState) (key : String) (d : ℚ)
    (h : specEffectiveValue cfg key = none) :
    GetFloat cfg key d = (⌊d * 1000000⌋ : ℚ) / 1000000 := by
  unfold GetFloat
  rw [getString_eq_effective, h]
  show (match stofModel (floatToString d) with
    | some q => q
    | none => d) = (⌊d * 1000000⌋ : ℚ) / 1000000
  rw [stof_floatToString]

/-- Claim C1 (amended).  Every config get follows the strict
runtime (CLI) → user (yaml) → mapped-system (json) → default
precedence: the effective value is the CLI entry when present, else the
user entry, else the system entry found under the mapped JSON path;
`GetString` returns that value verbatim (and the default when the key
is in no tier), `GetInt`/`GetFloat` return its `stoi`/`stof` parse
(falling back to the supplied default on a parse failure), `GetBool`
its tolerant boolean parse.  On a key absent from all tiers `GetInt`
and `GetBool` return the supplied default exactly, while `GetFloat`
returns the default only after rounding through its six-decimal
`std::to_string` rendering. -/
theorem config_get_precedence (cfg : ConfigState) (key : String) :
    (∀ v, treeGet cfg.cliOverrides key = some v →
      specEffectiveValue cfg key = some v) ∧
    (∀ v, treeGet cfg.cliOverrides key = none →
      treeGet cfg.yamlConfig key = some v →
      specEffectiveValue cfg key = some v) ∧
    (∀ v, treeGet cfg.cliOverrides key = none →
      treeGet cfg.yamlConfig key = none →
      treeGet cfg.jsonConfig (MapToJsonPath cfg.mappings key) = some v →
      specEffectiveValue cfg key = some v) ∧
    (∀ v d, specEffectiveValue cfg key = some v → GetString cfg key d = v) ∧
    (∀ v d, specEffectiveValue cfg key = some v →
      GetInt cfg key d = (stoiModel v).getD d) ∧
    (∀ v d, specEffectiveValue cfg key = some v →
      GetFloat cfg key d = (stofModel v).getD d) ∧
    (∀ v d, specEffectiveValue cfg key = some v →
      GetBool cfg key d =
        (if v = "true" ∨ v = "1" ∨ v = "yes" ∨ v = "on" then true
         else if v = "false" ∨ v = "0" ∨ v = "no" ∨ v = "off" then false
         else d)) ∧
    (∀ d, specEffectiveValue cfg key = none → GetString cfg key d = d) ∧
    (∀ d, specEffectiveValue cfg key = none → GetInt cfg key d = d) ∧
    (∀ d, specEffectiveValue cfg key = none → GetBool cfg key d = d) ∧
    (∀ d, specEffectiveValue cfg key = none →
      GetFloat cfg key d = (⌊d * 1000000⌋ : ℚ) / 1000000) := by
  refine ⟨?_, ?_, ?_, ?_, ?_, ?_, ?_, ?_, ?_, ?_, ?_⟩
  · intro v h
    unfold specEffectiveValue
    rw [h]
  · intro v h1 h2
    unfold specEffectiveValue
    rw [h1, h2]
  · intro v h1 h2 h3
    unfold specEffectiveValue
    rw [h1, h2, h3]
  · intro v d h
    rw [getString_eq_effective, h]
    rfl
  · intro v d h
    unfold GetInt
    rw [getString_eq_effective, h]
    simp only [Option.getD_some]
    cases stoiModel v with
    | some n => rfl
    | none => rfl
  · intro v d h
    unfold GetFloat
    rw [getString_eq_effective, h]
    simp only [Option.getD_some]
    cases stofModel v with
    | some q => rfl
    | none => rfl
  · intro v d h
    unfold GetBool
    rw [getString_eq_effective, h]
    simp only [Option.getD_some]
  · intro d h
    rw [getString_eq_effective, h]
    rfl
  · intro d h
    unfold GetInt
    rw [getString_eq_effective, h]
    show (match stoiModel (intToString d) with
      | some n => n
      | none => d) = d
    rw [stoi_intToString]
  · intro d h
    unfold GetBool
    rw [getString_eq_effective, h]
    cases d with
    | true => decide
    | false => decide
  · intro d h
    exact getFloat_absent cfg key d h

/-- Claim C1 witness: the concrete three-tier scenario of the claim,
`system a.b=1`, `user a.b=2`, `runtime a.b=3`: `get_int("a.b", 0)`
returns 3, then 2 after removing the runtime entry, then 1 after also
removing the user entry, then 0 with all tiers empty. -/
theorem config_get_precedence_witness :
    GetInt ⟨[("a.b", "1")], [("a.b", "2")], [("a.b", "3")], []⟩ "a.b" 0 = 3 ∧
    GetInt ⟨[("a.b", "1")], [("a.b", "2")], [], []⟩ "a.b" 0 = 2 ∧
    GetInt ⟨[("a.b", "1")], [], [], []⟩ "a.b" 0 = 1 ∧
    GetInt ⟨[], [], [], []⟩ "a.b" 0 = 0 := by
  refine ⟨?_, ?_, ?_, ?_⟩
  · rw [(config_get_precedence ⟨[("a.b", "1")], [("a.b", "2")],
      [("a.b", "3")], []⟩ "a.b").2.2.2.2.1 "3" 0 (by decide)]
    decide
  · rw [(config_get_precedence ⟨[("a.b", "1")], [("a.b", "2")], [], []⟩
      "a.b").2.2.2.2.1 "2" 0 (by decide)]
    decide
  · rw [(config_get_precedence ⟨[("a.b", "1")], [], [], []⟩
      "a.b").2.2.2.2.1 "1" 0 (by decide)]
    decide
  · exact (config_get_precedence ⟨[], [], [], []⟩
      "a.b").2.2.2.2.2.2.2.2.1 0 (by decide)

/-- Claim C1 counterexample: `GetFloat` does not return the supplied
default verbatim when the key is absent: the default is first rendered
with `std::to_string` (six decimal places) and re-parsed, so the
default 10⁻⁷ comes back as 0. -/
theorem config_get_float_default_rounded :
    GetFloat ⟨[], [], [], []⟩ "k" (1 / 10000000) = 0 ∧
    ((0 : ℚ) ≠ 1 / 10000000) := by
  constructor
  · have h : specEffectiveValue ⟨[], [], [], []⟩ "k" = none := by decide
    rw [getFloat_absent ⟨[], [], [], []⟩ "k" (1 / 10000000) h]
    rw [show ((1 : ℚ) / 10000000 * 1000000) = 1 / 10 by norm_num]
    rw [show ⌊(1 : ℚ) / 10⌋ = 0 from Int.floor_eq_zero_iff.mpr
      (by constructor <;> norm_num)]
    norm_num
  · norm_num

/- ------- C3: ValidateConfiguration ------- -/

theorem validateStep_foldl (maps : List (String × MappingEntry))
    (t : Tree) : ∀ acc : Bool × List String,
    List.foldl (validateStep maps) acc t =
      ((acc.1 && (tierErrors maps t).isEmpty), acc.2 ++ tierErrors maps t) := by
  induction t with
  | nil =>
    intro acc
    simp [tierErrors]
  | cons e rest ih =>
    intro acc
    rw [List.foldl_cons]
    cases hv : ValidateValue maps e.1 e.2 with
    | none =>
      have hstep : validateStep maps acc e = acc := by
        unfold validateStep
        rw [hv]
      rw [hstep, ih]
      simp [tierErrors, List.filterMap_cons, hv]
    | some msg =>
      have hstep : validateStep maps acc e = (false, acc.2 ++ [msg]) := by
        unfold validateStep
        rw [hv]
      rw [hstep, ih]
      simp [tierErrors, List.filterMap_cons, hv]

/-- Claim C3 (amended).  `ValidateConfiguration` does not check the keys
of the mapping table against their effective values: it iterates the
entries of the user (yaml) tier and then of the CLI tier, validates
each entry against that tier's own stored value, and collects every
resulting error message (one per offending tier entry, so a key
violating in both tiers produces two messages, and it never stops at
the first violation); the valid flag is true exactly when every entry
of both tiers passes.  Keys whose only (possibly offending) value sits
in the system tier are never examined. -/
theorem validateConfiguration_checks_tier_entries (cfg : ConfigState) :
    (ValidateConfiguration cfg).2 =
      tierErrors cfg.mappings cfg.yamlConfig ++
        tierErrors cfg.mappings cfg.cliOverrides ∧
    ((ValidateConfiguration cfg).1 = true ↔
      (∀ e ∈ cfg.yamlConfig, ValidateValue cfg.mappings e.1 e.2 = none) ∧
      (∀ e ∈ cfg.cliOverrides, ValidateValue cfg.mappings e.1 e.2 = none)) := by
  unfold ValidateConfiguration
  rw [validateStep_foldl, validateStep_foldl]
  constructor
  · simp
  · simp only [Bool.true_and, Bool.and_eq_true, List.isEmpty_iff]
    unfold tierErrors
    rw [List.filterMap_eq_nil, List.filterMap_eq_nil]

/-- Claim C3 counterexample: with mapping metadata `min = 5` for key `k`
and the offending value only in the system tier (`k = 1`), the
effective value violates the declared minimum — `ValidateValue` itself
rejects it — yet `ValidateConfiguration` reports no error at all and
returns valid, contradicting the claim that every mapped key's
effective value is checked and one error per offending key is
collected. -/
theorem validateConfiguration_misses_system_tier :
    ValidateConfiguration
      ⟨[("k", "1")], [], [],
        [("k", ⟨none, some ⟨none, some 5, none, none⟩⟩)]⟩ = (true, []) ∧
    specEffectiveValue
      ⟨[("k", "1")], [], [],
        [("k", ⟨none, some ⟨none, some 5, none, none⟩⟩)]⟩ "k" = some "1" ∧
    ValidateValue [("k", ⟨none, some ⟨none, some 5, none, none⟩⟩)] "k" "1" =
      some "k: value 1 below minimum" := by
  refine ⟨rfl, by decide, ?_⟩
  have hstof : stofModel "1" = some 1 := by
    have h1 : splitSign (List.dropWhile Char.isWhitespace ("1").data)
        = (false, ['1']) := by decide
    have h2 : List.takeWhile Char.isDigit ['1'] = ['1'] := by decide
    have h3 : List.dropWhile Char.isDigit ['1'] = [] := by decide
    simp only [stofModel, h1, h2, h3, stofTail]
    norm_num [digitsVal, show ('1').toNat = 49 from rfl]
  have hck : checkMinMax (⟨none, some 5, none, none⟩ : Validation) "k" "1"
      = some "k: value 1 below minimum" := by
    unfold checkMinMax
    rw [hstof]
    simp only [Option.isNone_some, Option.isNone_none, Bool.false_eq_true,
      false_and, if_false, decide_eq_true_eq]
    rw [if_pos (show (1 : ℚ) < 5 by norm_num)]
    decide
  have hmap : mappingFor
      [("k", (⟨none, some ⟨none, some 5, none, none⟩⟩ : MappingEntry))] "k"
      = some ⟨none, some ⟨none, some 5, none, none⟩⟩ := by
    unfold mappingFor
    simp
  unfold ValidateValue
  rw [hmap]
  show (match checkMinMax (⟨none, some 5, none, none⟩ : Validation) "k" "1" with
    | some msg => some msg
    | none => checkPattern (⟨none, some 5, none, none⟩ : Validation) "k" "1")
    = some "k: value 1 below minimum"
  rw [hck]
/- ===================================================================
   Calibration theorems (claims C2, C7)
   =================================================================== -/

theorem focalLoopGo_done (sample : ℕ → ℚ) {attempts tolerate fuel i idx
    failures : ℕ} {sum : ℚ} {count : ℕ} (h : attempts ≤ i) :
    focalLoopGo sample attempts tolerate (fuel + 1) i idx failures sum count
      = some (sum, count) := by
  conv_lhs => rw [focalLoopGo]
  rw [if_pos h]

theorem focalLoopGo_fail_tolerated (sample : ℕ → ℚ) {attempts tolerate fuel
    i idx failures : ℕ} {sum : ℚ} {count : ℕ} (h1 : i < attempts)
    (h2 : sample idx < 0) (h3 : failures + 1 ≤ tolerate) :
    focalLoopGo sample attempts tolerate (fuel + 1) i idx failures sum count
      = focalLoopGo sample attempts tolerate fuel i (idx + 1) (failures + 1)
          (sum + sample idx) (count + 1) := by
  conv_lhs => rw [focalLoopGo]
  rw [if_neg (by omega), if_pos h2, if_neg (by omega)]

theorem focalLoopGo_fail_abort (sample : ℕ → ℚ) {attempts tolerate fuel
    i idx failures : ℕ} {sum : ℚ} {count : ℕ} (h1 : i < attempts)
    (h2 : sample idx < 0) (h3 : tolerate < failures + 1) :
    focalLoopGo sample attempts tolerate (fuel + 1) i idx failures sum count
      = none := by
  conv_lhs => rw [focalLoopGo]
  rw [if_neg (by omega), if_pos h2, if_pos h3]

theorem focalLoopGo_ok (sample : ℕ → ℚ) {attempts tolerate fuel i idx
    failures : ℕ} {sum : ℚ} {count : ℕ} (h1 : i < attempts)
    (h2 : ¬sample idx < 0) :
    focalLoopGo sample attempts tolerate (fuel + 1) i idx failures sum count
      = focalLoopGo sample attempts tolerate fuel (i + 1) (idx + 1) failures
          (sum + sample idx) (count + 1) := by
  conv_lhs => rw [focalLoopGo]
  rw [if_neg (by omega), if_neg h2]

/-- Claim C2 (code bug).  The focal-length sampling loop of
`AutoCalibrateCamera` does not drop failed samples from the average:
on a tolerated failure the source decrements `i` but falls through to
`number_samples++` and `average_focal_length += focal_length`, so the
failed sample's −1.0 return value is added to the sum and counted.
With 2 requested samples, 2 tolerated failures, and detection results
−1, 10, 10 the loop ends with sum 19 over 3 samples (average 19/3
≈ 6.33 mm) instead of the mean 10 mm of the valid samples.  The abort
condition of the claim does hold: a third consecutive failure with 2
tolerated aborts the calibration (`none`). -/
theorem focal_average_includes_failed_sample :
    focalLoop (fun n => if n = 0 then (-1 : ℚ) else 10) 2 2 = some (19, 3) ∧
    ((19 : ℚ) / 3 ≠ 10) ∧
    focalLoop (fun _ => (-1 : ℚ)) 1 2 = none := by
  refine ⟨?_, by norm_num, ?_⟩
  · show focalLoopGo (fun n => if n = 0 then (-1 : ℚ) else 10) 2 2 6
      0 0 0 0 0 = some (19, 3)
    rw [focalLoopGo_fail_tolerated _ (by omega) (by norm_num) (by omega)]
    rw [focalLoopGo_ok _ (by omega) (by norm_num)]
    rw [focalLoopGo_ok _ (by omega) (by norm_num)]
    rw [focalLoopGo_done _ (by omega)]
    norm_num
  · show focalLoopGo (fun _ => (-1 : ℚ)) 1 2 5 0 0 0 0 0 = none
    rw [focalLoopGo_fail_tolerated _ (by omega) (by norm_num) (by omega)]
    rw [focalLoopGo_fail_tolerated _ (by omega) (by norm_num) (by omega)]
    rw [focalLoopGo_fail_abort _ (by omega) (by norm_num) (by omega)]

theorem afterSampling_rejects (env : CalibEnv) (sum : ℚ) (count : ℕ) :
    ((sum / (count : ℚ) < 2 ∨ 50 < sum / (count : ℚ)) →
      autoCalibrateAfterSampling env sum count = (false, [])) ∧
    (∀ a1 a2, env.computedAngles = some (a1, a2) →
      (45 < |a1| ∨ 45 < |a2|) →
      autoCalibrateAfterSampling env sum count = (false, [])) := by
  constructor
  · intro havg
    unfold autoCalibrateAfterSampling
    by_cases h1 : count = 0
    · rw [if_pos h1]
    · rw [if_neg h1, if_pos havg]
  · intro a1 a2 hang habs
    have hDCA : DetermineCameraAngles env.computedAngles = none := by
      unfold DetermineCameraAngles
      rw [hang]
      show (if 45 < |a1| ∨ 45 < |a2| then none else some (a1, a2)) = none
      rw [if_pos habs]
    unfold autoCalibrateAfterSampling
    rw [hDCA]
    split_ifs <;> rfl

/-- Claim C7.  If the computed average focal length falls outside
[2, 50] mm, or the computed camera angles exceed 45° in magnitude (so
`DetermineCameraAngles` rejects), `AutoCalibrateCamera` returns false
with no effects at all: no backup copy, no config rewrite, and no web
PUT. -/
theorem autoCalibrate_aborts_before_writes (env : CalibEnv) :
    (∀ sum count,
      focalLoop env.sample env.attempts env.tolerate = some (sum, count) →
      (sum / (count : ℚ) < 2 ∨ 50 < sum / (count : ℚ)) →
      AutoCalibrateCamera env = (false, [])) ∧
    (∀ a1 a2, env.computedAngles = some (a1, a2) →
      (45 < |a1| ∨ 45 < |a2|) →
      AutoCalibrateCamera env = (false, [])) := by
  constructor
  · intro sum count hloop havg
    unfold AutoCalibrateCamera
    split_ifs <;> try rfl
    rw [hloop]
    show autoCalibrateAfterSampling env sum count = (false, [])
    exact (afterSampling_rejects env sum count).1 havg
  · intro a1 a2 hang habs
    unfold AutoCalibrateCamera
    split_ifs <;> try rfl
    cases hloop : focalLoop env.sample env.attempts env.tolerate with
    | none => rfl
    | some sc =>
      obtain ⟨sum, count⟩ := sc
      show autoCalibrateAfterSampling env sum count = (false, [])
      exact (afterSampling_rejects env sum count).2 a1 a2 hang habs

/-- Claim C7 witness: a synthetic detection whose recovered angle is 60°
makes `AutoCalibrateCamera` return false with the config file
untouched (no backup, no rewrite, no web PUT). -/
theorem autoCalibrate_witness_sixty_degrees :
    AutoCalibrateCamera
      { retrieveConstantsOk := true, distanceToBall := 1, expectedRadius := 20,
        maxRadiusOffset := 10, stillPictureOk := true, sample := fun _ => 10,
        attempts := 1, tolerate := 2, computedAngles := some (60, 0),
        backupOk := true, writeOk := true } = (false, []) :=
  (autoCalibrate_aborts_before_writes _).2 60 0 rfl (Or.inl (by norm_num))

/- ===================================================================
   Trajectory theorems (claim C9)
   =================================================================== -/

theorem validateInput_false_iff (input : TrajectoryInput) :
    validateInput input = false ↔
      (input.initialVelocityMph < 50 ∨ 250 < input.initialVelocityMph ∨
       input.verticalLaunchAngleDeg < -10 ∨
       60 < input.verticalLaunchAngleDeg ∨
       45 < |input.horizontalLaunchAngleDeg| ∨
       10000 < |input.backspinRpm| ∨ 10000 < |input.sidespinRpm|) := by
  unfold validateInput
  split_ifs with h1 h2 h3 h4
  · exact iff_of_true rfl (by tauto)
  · exact iff_of_true rfl (by tauto)
  · exact iff_of_true rfl
      (Or.inr (Or.inr (Or.inr (Or.inr (Or.inl h3)))))
  · exact iff_of_true rfl (by tauto)
  · apply iff_of_false (by simp)
    push_neg at h1 h2 h4
    push_neg
    exact ⟨h1.1, h1.2, h2.1, h2.2, not_lt.mp h3, h4.1, h4.2⟩

/-- Claim C9.  `calculateCarry` validates its input: for any out-of-range
parameter (velocity outside [50, 250] mph, vertical launch angle
outside [−10, 60]°, |horizontal angle| > 45°, or |spin| > 10000 rpm)
it returns `calculation_successful = false`, a non-empty explanatory
message, and zero carry, without throwing; for in-range input it
returns either a successful result or a failure result carrying the
physics library's error text (and zero carry). -/
theorem calculateCarry_validates
    (phys : TrajectoryInput → Except String PhysicsOutput)
    (input : TrajectoryInput) :
    ((input.initialVelocityMph < 50 ∨ 250 < input.initialVelocityMph ∨
      input.verticalLaunchAngleDeg < -10 ∨
      60 < input.verticalLaunchAngleDeg ∨
      45 < |input.horizontalLaunchAngleDeg| ∨
      10000 < |input.backspinRpm| ∨ 10000 < |input.sidespinRpm|) →
      (calculateCarry phys input).calculationSuccessful = false ∧
      (calculateCarry phys input).errorMessage = "Invalid input parameters" ∧
      (calculateCarry phys input).errorMessage ≠ "" ∧
      (calculateCarry phys input).carryDistanceYards = 0) ∧
    (validateInput input = true →
      (calculateCarry phys input).calculationSuccessful = true ∨
      ((calculateCarry phys input).calculationSuccessful = false ∧
       ∃ e, (calculateCarry phys input).errorMessage =
          "libshotscope calculation error: " ++ e ∧
        (calculateCarry phys input).carryDistanceYards = 0)) := by
  constructor
  · intro hout
    have hv : validateInput input = false :=
      (validateInput_false_iff input).mpr hout
    unfold calculateCarry
    rw [hv, if_pos (show ¬false = true by decide)]
    refine ⟨rfl, rfl, ?_, rfl⟩
    decide
  · intro hv
    unfold calculateCarry
    rw [hv, if_neg (show ¬¬true = true by decide)]
    cases phys (applyDefaults input) with
    | ok out => exact Or.inl rfl
    | error e => exact Or.inr ⟨rfl, e, rfl, rfl⟩

/-- Claim C9 witness: a 300 mph input is rejected with
`calculation_successful = false`, the "Invalid input parameters"
message, and zero carry. -/
theorem calculateCarry_witness :
    (calculateCarry (fun _ => Except.error "boom")
      ⟨300, 10, 0, 3000, 0, none, none, none, none, none, none⟩
      ).calculationSuccessful = false ∧
    (calculateCarry (fun _ => Except.error "boom")
      ⟨300, 10, 0, 3000, 0, none, none, none, none, none, none⟩
      ).errorMessage = "Invalid input parameters" ∧
    (calculateCarry (fun _ => Except.error "boom")
      ⟨300, 10, 0, 3000, 0, none, none, none, none, none, none⟩
      ).carryDistanceYards = 0 := by
  have h := (calculateCarry_validates (fun _ => Except.error "boom")
    ⟨300, 10, 0, 3000, 0, none, none, none, none, none, none⟩).1
    (Or.inr (Or.inl (by norm_num)))
  exact ⟨h.1, h.2.1, h.2.2.2⟩

/- ===================================================================
   Neural detector buffer-pool theorems (claims C8, C10)
   =================================================================== -/

/-- Claim C10.  `Detect` called with an empty image, a non-3-channel
image, or an uninitialised session returns an empty detection list
without throwing: no inference is attempted, no buffer is claimed, and
the memory pool is left exactly as it was. -/
theorem detect_input_guards (env : DetectEnv) (p : PoolState)
    (h : env.imageEmpty = true ∨ env.imageChannels ≠ 3 ∨
      env.sessionInitialized = false) :
    Detect env p =
      { dets := [], pool := p, inferenceAttempted := false,
        bufferUsed := none } := by
  unfold Detect
  rcases h with h | h | h
  · rw [if_pos h]
  · by_cases h1 : env.imageEmpty = true
    · rw [if_pos h1]
    · rw [if_neg h1, if_pos h]
  · by_cases h1 : env.imageEmpty = true
    · rw [if_pos h1]
    · by_cases h2 : env.imageChannels ≠ 3
      · rw [if_neg h1, if_pos h2]
      · rw [if_neg h1, if_neg h2,
          if_pos (show ¬env.sessionInitialized = true by simp [h])]

/-- Claim C10 witness: an empty 3-channel image on an initialised
detector yields no detections, no inference, and an untouched pool. -/
theorem detect_input_guards_witness :
    Detect
      { imageEmpty := true, imageChannels := 3,
        sessionInitialized := true, hasMemoryPool := true,
        outcome := RunOutcome.ok [] }
      { inputBufferInUse := false, outputBufferInUse := false } =
      { dets := [],
        pool := { inputBufferInUse := false, outputBufferInUse := false },
        inferenceAttempted := false,
        bufferUsed := none } :=
  detect_input_guards _ _ (Or.inl rfl)

/-- Claim C8 counterexample: the claim that `Detect` "releases the pool
buffers before returning" fails on the post-inference error paths:
with a free pool and an inference returning no output tensors, the
call claims the pooled input buffer, returns an empty list, and leaves
the input buffer still marked in use. -/
theorem detect_skips_release_on_error_path :
    (Detect
      { imageEmpty := false, imageChannels := 3,
        sessionInitialized := true, hasMemoryPool := true,
        outcome := RunOutcome.noOutputTensors }
      { inputBufferInUse := false,
        outputBufferInUse := false }).bufferUsed =
      some BufferSource.pooled ∧
    (Detect
      { imageEmpty := false, imageChannels := 3,
        sessionInitialized := true, hasMemoryPool := true,
        outcome := RunOutcome.noOutputTensors }
      { inputBufferInUse := false,
        outputBufferInUse := false }).pool.inputBufferInUse = true := by
  constructor <;> rfl

/-- Claim C8 (amended).  On the successful path `Detect` claims the
pooled input buffer at entry and releases the pool buffers before
returning; a call made while the pool input buffer is already in use
has its claim fail with the recoverable runtime error raised by
`MemoryPool::GetInputBuffer` and caught by the caller, and the
detection proceeds on the thread-local heap buffer and still returns
its detections; but on the post-inference error returns (no output
tensors, null data, empty shape, non-positive size) the early `return`
skips `ReleaseBuffers`, so the pool input buffer stays claimed. -/
theorem detect_pool_claim_and_fallback (p : PoolState)
    (dets : List Detection) :
    (p.inputBufferInUse = false →
      Detect
        { imageEmpty := false, imageChannels := 3,
          sessionInitialized := true, hasMemoryPool := true,
          outcome := RunOutcome.ok dets } p =
        { dets := dets,
          pool := { inputBufferInUse := false, outputBufferInUse := false },
          inferenceAttempted := true,
          bufferUsed := some BufferSource.pooled }) ∧
    (p.inputBufferInUse = true →
      poolGetInputBuffer p = Except.error "Input buffer already in use" ∧
      Detect
        { imageEmpty := false, imageChannels := 3,
          sessionInitialized := true, hasMemoryPool := true,
          outcome := RunOutcome.ok dets } p =
        { dets := dets,
          pool := { inputBufferInUse := false, outputBufferInUse := false },
          inferenceAttempted := true,
          bufferUsed := some BufferSource.heapFallback }) ∧
    (p.inputBufferInUse = false →
      (Detect
        { imageEmpty := false, imageChannels := 3,
          sessionInitialized := true, hasMemoryPool := true,
          outcome := RunOutcome.noOutputTensors } p).pool.inputBufferInUse
        = true) := by
  obtain ⟨pin, pout⟩ := p
  refine ⟨?_, ?_, ?_⟩
  · intro h
    cases pin with
    | false => rfl
    | true => exact absurd h (by simp)
  · intro h
    cases pin with
    | false => exact absurd h (by simp)
    | true => exact ⟨rfl, rfl⟩
  · intro h
    cases pin with
    | false => rfl
    | true => exact absurd h (by simp)

/-- Claim C8 witness: concrete instantiations of the pooled-claim,
fallback, and leaked-claim behaviours. -/
theorem detect_pool_claim_and_fallback_witness :
    Detect
      { imageEmpty := false, imageChannels := 3,
        sessionInitialized := true, hasMemoryPool := true,
        outcome := RunOutcome.ok [] }
      { inputBufferInUse := true, outputBufferInUse := false } =
      { dets := [],
        pool := { inputBufferInUse := false, outputBufferInUse := false },
        inferenceAttempted := true,
        bufferUsed := some BufferSource.heapFallback } :=
  ((detect_pool_claim_and_fallback
    { inputBufferInUse := true, outputBufferInUse := false } []).2.1 rfl).2

/- ===================================================================
   Flight-capture FSM theorems (claim C4)
   =================================================================== -/

theorem fsm_stay_during_quiesce (cfg : FsmConfig) (ts : List ℤ)
    (h : ∀ u ∈ ts, u < cfg.quiesceTimeMs) :
    ts.foldl (fsmTriggerStep cfg)
      FlightCameraState.kWaitingForFirstPrimingTimeEnd
      = FlightCameraState.kWaitingForFirstPrimingTimeEnd := by
  induction ts with
  | nil => rfl
  | cons u rest ih =>
    rw [List.foldl_cons]
    have hstep : fsmTriggerStep cfg
        FlightCameraState.kWaitingForFirstPrimingTimeEnd u
        = FlightCameraState.kWaitingForFirstPrimingTimeEnd := by
      show (if u < cfg.quiesceTimeMs then
          FlightCameraState.kWaitingForFirstPrimingTimeEnd
        else if ¬cfg.usePreImageSubtraction then
          if ¬cfg.cameraRequiresFlushPulse then
            FlightCameraState.kWaitingForFinalImageFlush
          else FlightCameraState.kWaitingForFinalImageTrigger
        else FlightCameraState.kWaitingForPreImageTrigger)
        = FlightCameraState.kWaitingForFirstPrimingTimeEnd
      rw [if_pos (h u (by simp))]
    rw [hstep]
    exact ih fun x hx => h x (by simp [hx])

/-- Claim C4.  With
`quiesce_ms = (priming_pulse_count + 1) · (1000 / priming_fps)` plus
the external-trigger setup allowance for the InnoMaker camera, every
trigger received in `kWaitingForFirstPrimingTimeEnd` strictly before
`quiesce_ms` has elapsed leaves the state unchanged (so the FSM never
reaches the final state during the quiesce period), and the first
trigger at or after `quiesce_ms` advances exactly one step: to
`kWaitingForPreImageTrigger` when pre-image subtraction is enabled, to
`kWaitingForFinalImageTrigger` when it is disabled and the camera
requires a flush pulse, and to `kWaitingForFinalImageFlush` when it is
disabled and no flush is required. -/
theorem fsm_quiesce_behaviour (numberPrimingPulses primingPulseFPS
    pauseMs : ℤ) (isInnoMaker preSub flush : Bool) (ts : List ℤ) (t : ℤ) :
    ((∀ u ∈ ts, u < kQuiesceTimeMs numberPrimingPulses primingPulseFPS
        isInnoMaker pauseMs) →
      ts.foldl
          (fsmTriggerStep ⟨preSub, flush, kQuiesceTimeMs numberPrimingPulses
            primingPulseFPS isInnoMaker pauseMs⟩)
          FlightCameraState.kWaitingForFirstPrimingTimeEnd
        = FlightCameraState.kWaitingForFirstPrimingTimeEnd ∧
      ts.foldl
          (fsmTriggerStep ⟨preSub, flush, kQuiesceTimeMs numberPrimingPulses
            primingPulseFPS isInnoMaker pauseMs⟩)
          FlightCameraState.kWaitingForFirstPrimingTimeEnd
        ≠ FlightCameraState.kFinalImageReceived) ∧
    (kQuiesceTimeMs numberPrimingPulses primingPulseFPS isInnoMaker pauseMs
        ≤ t →
      fsmTriggerStep ⟨preSub, flush, kQuiesceTimeMs numberPrimingPulses
          primingPulseFPS isInnoMaker pauseMs⟩
        FlightCameraState.kWaitingForFirstPrimingTimeEnd t =
        (if preSub then FlightCameraState.kWaitingForPreImageTrigger
         else if flush then FlightCameraState.kWaitingForFinalImageTrigger
         else FlightCameraState.kWaitingForFinalImageFlush)) := by
  constructor
  · intro h
    have hstay := fsm_stay_during_quiesce
      ⟨preSub, flush, kQuiesceTimeMs numberPrimingPulses primingPulseFPS
        isInnoMaker pauseMs⟩ ts h
    refine ⟨hstay, ?_⟩
    rw [hstay]
    decide
  · intro ht
    show (if t < kQuiesceTimeMs numberPrimingPulses primingPulseFPS
        isInnoMaker pauseMs then
        FlightCameraState.kWaitingForFirstPrimingTimeEnd
      else if ¬preSub then
        if ¬flush then FlightCameraState.kWaitingForFinalImageFlush
        else FlightCameraState.kWaitingForFinalImageTrigger
      else FlightCameraState.kWaitingForPreImageTrigger) = _
    rw [if_neg (not_lt.mpr ht)]
    cases preSub with
    | true => rfl
    | false =>
      cases flush with
      | true => rfl
      | false => rfl

/-- Claim C4 witness: `priming_pulse_count = 3`, `priming_fps = 1000`,
no external-trigger allowance, so `quiesce_ms = 4`; triggers at 0, 1,
2, 3 ms are all absorbed, and a trigger at 5 ms advances to
`kWaitingForPreImageTrigger` with pre-image subtraction enabled. -/
theorem fsm_quiesce_witness :
    ([0, 1, 2, 3] : List ℤ).foldl
        (fsmTriggerStep ⟨true, false, kQuiesceTimeMs 3 1000 false 0⟩)
        FlightCameraState.kWaitingForFirstPrimingTimeEnd
      = FlightCameraState.kWaitingForFirstPrimingTimeEnd ∧
    fsmTriggerStep ⟨true, false, kQuiesceTimeMs 3 1000 false 0⟩
        FlightCameraState.kWaitingForFirstPrimingTimeEnd 5
      = FlightCameraState.kWaitingForPreImageTrigger := by
  constructor
  · exact ((fsm_quiesce_behaviour 3 1000 0 false true false [0, 1, 2, 3] 5).1
      (by decide)).1
  · have h := (fsm_quiesce_behaviour 3 1000 0 false true false
      [0, 1, 2, 3] 5).2 (by decide)
    rw [h]
    rfl

/- ===================================================================
   Letterbox theorems (claim C6)
   =================================================================== -/

/-- Claim C6.  The forward letterbox map (scale by
`min(W/w, H/h)`, shift by the centred offsets) composed with the
inverse mapping of `PostprocessYOLO` is the identity — in particular
every point returns to within 1 px of its original position — and the
concrete 1280×720 → 640×640 case yields scale 1/2, offsets (0, 140),
maps (640, 360) to (320, 320), and inverts back to (640, 360). -/
theorem letterbox_roundtrip (w h W H : ℕ) (hw : 0 < w) (hh : 0 < h)
    (hW : 0 < W) (hH : 0 < H) (c : ℚ × ℚ) :
    letterboxInv (letterboxParams w h W H)
      (letterboxFwd (letterboxParams w h W H) c) = c ∧
    (|(letterboxInv (letterboxParams w h W H)
        (letterboxFwd (letterboxParams w h W H) c)).1 - c.1| < 1 ∧
     |(letterboxInv (letterboxParams w h W H)
        (letterboxFwd (letterboxParams w h W H) c)).2 - c.2| < 1) ∧
    letterboxParams 1280 720 640 640 =
      { scale := 1 / 2, xOffset := 0, yOffset := 140 } ∧
    letterboxFwd (letterboxParams 1280 720 640 640) (640, 360)
      = (320, 320) ∧
    letterboxInv (letterboxParams 1280 720 640 640) (320, 320)
      = (640, 360) := by
  have hs : (letterboxParams w h W H).scale
      = min ((W : ℚ) / (w : ℚ)) ((H : ℚ) / (h : ℚ)) := rfl
  have hspos : 0 < (letterboxParams w h W H).scale := by
    rw [hs]
    apply lt_min
    · apply div_pos
      · exact_mod_cast hW
      · exact_mod_cast hw
    · apply div_pos
      · exact_mod_cast hH
      · exact_mod_cast hh
  have hs0 : (letterboxParams w h W H).scale ≠ 0 := ne_of_gt hspos
  have hrt : letterboxInv (letterboxParams w h W H)
      (letterboxFwd (letterboxParams w h W H) c) = c := by
    unfold letterboxInv letterboxFwd
    rw [Prod.ext_iff]
    constructor
    · show (c.1 * (letterboxParams w h W H).scale
        + ((letterboxParams w h W H).xOffset : ℚ)
        - ((letterboxParams w h W H).xOffset : ℚ))
        / (letterboxParams w h W H).scale = c.1
      field_simp
    · show (c.2 * (letterboxParams w h W H).scale
        + ((letterboxParams w h W H).yOffset : ℚ)
        - ((letterboxParams w h W H).yOffset : ℚ))
        / (letterboxParams w h W H).scale = c.2
      field_simp
  have hparams : letterboxParams 1280 720 640 640 =
      { scale := 1 / 2, xOffset := 0, yOffset := 140 } := by
    unfold letterboxParams
    have hmin : min ((640 : ℚ) / (1280 : ℚ)) ((640 : ℚ) / (720 : ℚ))
        = 1 / 2 := by
      rw [min_eq_left (by norm_num)]
      norm_num
    norm_num [hmin]
  refine ⟨hrt, ⟨?_, ?_⟩, hparams, ?_, ?_⟩
  · rw [hrt]
    simp
  · rw [hrt]
    simp
  · rw [hparams]
    unfold letterboxFwd
    norm_num
  · rw [hparams]
    unfold letterboxInv
    norm_num

/-- Claim C6 witness: the general round-trip theorem instantiated at the
concrete 1280×720 image, 640×640 tensor and source point (640, 360). -/
theorem letterbox_roundtrip_witness :
    letterboxInv (letterboxParams 1280 720 640 640)
      (letterboxFwd (letterboxParams 1280 720 640 640) (640, 360))
      = (640, 360) ∧
    letterboxParams 1280 720 640 640 =
      { scale := 1 / 2, xOffset := 0, yOffset := 140 } := by
  have h := letterbox_roundtrip 1280 720 640 640 (by norm_num) (by norm_num)
    (by norm_num) (by norm_num) (640, 360)
  exact ⟨h.1, h.2.2.1⟩

/- ===================================================================
   Non-max suppression theorems (claim C5)
   =================================================================== -/

theorem nmsKeepGo_sublist (thr : ℚ) :
    ∀ (fuel : ℕ) (l : List Detection), (nmsKeepGo thr fuel l).Sublist l := by
  intro fuel
  induction fuel with
  | zero =>
    intro l
    cases l with
    | nil => exact List.Sublist.refl []
    | cons d rest => exact List.nil_sublist _
  | succ fuel ih =>
    intro l
    cases l with
    | nil => exact List.Sublist.refl []
    | cons d rest =>
      show (d :: nmsKeepGo thr fuel (rest.filter fun e =>
        decide (¬(e.classId = d.classId ∧ thr < IOU d.bbox e.bbox)))).Sublist
        (d :: rest)
      exact List.Sublist.cons₂ d ((ih _).trans (List.filter_sublist rest))

theorem nmsKeepGo_pairwise_iou (thr : ℚ) :
    ∀ (fuel : ℕ) (l : List Detection),
    (nmsKeepGo thr fuel l).Pairwise
      (fun a b => a.classId = b.classId → IOU a.bbox b.bbox ≤ thr) := by
  intro fuel
  induction fuel with
  | zero =>
    intro l
    cases l with
    | nil => exact List.Pairwise.nil
    | cons d rest => exact List.Pairwise.nil
  | succ fuel ih =>
    intro l
    cases l with
    | nil => exact List.Pairwise.nil
    | cons d rest =>
      show (d :: nmsKeepGo thr fuel (rest.filter fun e =>
        decide (¬(e.classId = d.classId ∧ thr < IOU d.bbox e.bbox)))).Pairwise
        (fun a b => a.classId = b.classId → IOU a.bbox b.bbox ≤ thr)
      refine List.Pairwise.cons ?_ (ih _)
      intro e he hcls
      have hmem : e ∈ rest.filter (fun e =>
          decide (¬(e.classId = d.classId ∧ thr < IOU d.bbox e.bbox))) :=
        (nmsKeepGo_sublist thr fuel _).subset he
      have hp : decide (¬(e.classId = d.classId ∧
          thr < IOU d.bbox e.bbox)) = true := by
        simpa using List.of_mem_filter hmem
      have hne := of_decide_eq_true hp
      exact not_lt.mp fun hlt => hne ⟨hcls.symm, hlt⟩

theorem sortByConfDesc_sorted (l : List Detection) :
    (sortByConfDesc l).Pairwise (fun a b => b.confidence ≤ a.confidence) := by
  haveI : IsTotal Detection (fun a b => b.confidence ≤ a.confidence) :=
    ⟨fun a b => le_total b.confidence a.confidence⟩
  haveI : IsTrans Detection (fun a b => b.confidence ≤ a.confidence) :=
    ⟨fun a b c hab hbc => le_trans hbc hab⟩
  exact List.sorted_insertionSort _ l

/-- Claim C5.  `NonMaxSuppression` returns a list ordered by descending
confidence in which no two surviving detections of the same class have
IoU above the threshold (suppression is greedy: each kept detection
removes every later same-class detection with IoU above the
threshold), and on the concrete input boxes (0,0,10,10) conf 0.9,
(1,1,10,10) conf 0.8, (50,50,10,10) conf 0.7 — all class 0 — with
threshold 0.5, the first and third survive and the second is
suppressed (their IoU is 81/119 > 1/2). -/
theorem nms_descending_and_class_aware (thr : ℚ) (dets : List Detection) :
    (NonMaxSuppression thr dets).Pairwise
      (fun a b => b.confidence ≤ a.confidence) ∧
    (NonMaxSuppression thr dets).Pairwise
      (fun a b => a.classId = b.classId → IOU a.bbox b.bbox ≤ thr) ∧
    NonMaxSuppression (1 / 2)
      [⟨⟨0, 0, 10, 10⟩, 9 / 10, 0⟩, ⟨⟨1, 1, 10, 10⟩, 8 / 10, 0⟩,
       ⟨⟨50, 50, 10, 10⟩, 7 / 10, 0⟩]
      = [⟨⟨0, 0, 10, 10⟩, 9 / 10, 0⟩, ⟨⟨50, 50, 10, 10⟩, 7 / 10, 0⟩] ∧
    IOU ⟨0, 0, 10, 10⟩ ⟨1, 1, 10, 10⟩ = 81 / 119 := by
  have hiou12 : IOU ⟨0, 0, 10, 10⟩ ⟨1, 1, 10, 10⟩ = 81 / 119 := by
    norm_num [IOU, interArea, Box.area, fltEpsilon, min_def, max_def]
  have hiou13 : IOU ⟨0, 0, 10, 10⟩ ⟨50, 50, 10, 10⟩ = 0 := by
    norm_num [IOU, interArea, Box.area, fltEpsilon, min_def, max_def]
  refine ⟨?_, ?_, ?_, hiou12⟩
  · exact List.Pairwise.sublist (nmsKeepGo_sublist thr _ _)
      (sortByConfDesc_sorted dets)
  · exact nmsKeepGo_pairwise_iou thr _ _
  · have hsort : sortByConfDesc
        [⟨⟨0, 0, 10, 10⟩, 9 / 10, 0⟩, ⟨⟨1, 1, 10, 10⟩, 8 / 10, 0⟩,
         ⟨⟨50, 50, 10, 10⟩, 7 / 10, 0⟩]
        = [⟨⟨0, 0, 10, 10⟩, 9 / 10, 0⟩, ⟨⟨1, 1, 10, 10⟩, 8 / 10, 0⟩,
           ⟨⟨50, 50, 10, 10⟩, 7 / 10, 0⟩] := by
      norm_num [sortByConfDesc, List.insertionSort, List.orderedInsert]
    show nmsKeep (1 / 2) (sortByConfDesc _) = _
    rw [hsort]
    show nmsKeepGo (1 / 2) 3 _ = _
    have hf1 : List.filter (fun e : Detection =>
        decide (¬(e.classId = (⟨⟨0, 0, 10, 10⟩, 9 / 10, 0⟩ :
          Detection).classId ∧
          1 / 2 < IOU (⟨⟨0, 0, 10, 10⟩, 9 / 10, 0⟩ : Detection).bbox e.bbox)))
        [⟨⟨1, 1, 10, 10⟩, 8 / 10, 0⟩, ⟨⟨50, 50, 10, 10⟩, 7 / 10, 0⟩]
        = [⟨⟨50, 50, 10, 10⟩, 7 / 10, 0⟩] := by
      rw [List.filter_cons, List.filter_cons, List.filter_nil]
      rw [show (decide (¬((⟨⟨1, 1, 10, 10⟩, 8 / 10, 0⟩ :
          Detection).classId = (⟨⟨0, 0, 10, 10⟩, 9 / 10, 0⟩ :
          Detection).classId ∧
          1 / 2 < IOU (⟨⟨0, 0, 10, 10⟩, 9 / 10, 0⟩ : Detection).bbox
            (⟨⟨1, 1, 10, 10⟩, 8 / 10, 0⟩ : Detection).bbox))) = false
        from by
          simp only [hiou12]
          norm_num]
      rw [show (decide (¬((⟨⟨50, 50, 10, 10⟩, 7 / 10, 0⟩ :
          Detection).classId = (⟨⟨0, 0, 10, 10⟩, 9 / 10, 0⟩ :
          Detection).classId ∧
          1 / 2 < IOU (⟨⟨0, 0, 10, 10⟩, 9 / 10, 0⟩ : Detection).bbox
            (⟨⟨50, 50, 10, 10⟩, 7 / 10, 0⟩ : Detection).bbox))) = true
        from by
          simp only [hiou13]
          norm_num]
      simp
    show ((⟨⟨0, 0, 10, 10⟩, 9 / 10, 0⟩ : Detection) ::
      nmsKeepGo (1 / 2) 2 (List.filter _ _)) = _
    rw [hf1]
    rfl

/-- Claim C3 witness: the characterisation instantiated at a concrete
store (empty tiers validate with no errors). -/
theorem validateConfiguration_tier_entries_witness :
    (ValidateConfiguration ⟨[], [], [], []⟩).1 = true ∧
    (ValidateConfiguration ⟨[], [], [], []⟩).2 = [] := by
  have h := validateConfiguration_checks_tier_entries ⟨[], [], [], []⟩
  exact ⟨h.2.mpr ⟨by simp, by simp⟩, by simpa using h.1⟩

/-- Claim C5 witness: the concrete three-box scenario extracted from
the general theorem. -/
theorem nms_concrete_witness :
    NonMaxSuppression (1 / 2)
      [⟨⟨0, 0, 10, 10⟩, 9 / 10, 0⟩, ⟨⟨1, 1, 10, 10⟩, 8 / 10, 0⟩,
       ⟨⟨50, 50, 10, 10⟩, 7 / 10, 0⟩]
      = [⟨⟨0, 0, 10, 10⟩, 9 / 10, 0⟩, ⟨⟨50, 50, 10, 10⟩, 7 / 10, 0⟩] :=
  (nms_descending_and_class_aware (1 / 2) []).2.2.1

end PiTrac
